import Mathlib

/-!
Verification development for the traceability-extraction scripts
`scripts/github-issues-to-traceability-json.py` (namespace `TraceJson`) and
`scripts/github-traceability-report.py` (namespace `TraceReport`).

The scripts parse issue bodies with Python `re` patterns.  Every quantifier in
those patterns applies to a single-character class, so their exact backtracking
semantics (leftmost match, alternation priority, greedy and lazy single-class
repetition, `MULTILINE` anchors, lookahead) is embedded below as a small
executable matcher over `List Char`.  `re.findall` with one capture group of
the shape `#(\d+)` is embedded by `findallNum`; `re.findall` returning whole
matches (no group) is embedded by `findallSec`.

Caveats of the embedding, stated once here: character case folding uses
`Char.toLower`/`Char.toUpper` (ASCII), `\s` is the ASCII whitespace class and
`\d` the ASCII digit class; Python's Unicode extensions of these classes are
not modelled.  All bodies appearing in concrete theorems are ASCII.  Python
floats are modelled by `ℚ` (the computed percentages are exact decimal
fractions in every claim considered).
-/

/-- Abstract syntax of the regex fragment used by the scripts.  Repetition
constructors carry a single-character predicate, matching the source patterns
where every `*`, `+`, `?` applies to a character class. -/
inductive RE : Type where
  | eps : RE
  | pred : (Char → Bool) → RE
  | cat : RE → RE → RE
  | alt : RE → RE → RE
  | starG : (Char → Bool) → RE
  | starL : (Char → Bool) → RE
  | plusG : (Char → Bool) → RE
  | bolA : RE
  | eolA : RE
  | look : RE → RE

/-- Length of the maximal run of characters satisfying `p` starting at `i`
(fuel-driven; fuel `s.length + 1` always suffices). -/
def runLen (s : List Char) (p : Char → Bool) : Nat → Nat → Nat
  | 0, _ => 0
  | fuel + 1, i =>
    match s.get? i with
    | some c => if p c then runLen s p fuel (i + 1) + 1 else 0
    | none => 0

/-- Greedy backtracking over a character run: try the continuation after
consuming `n` characters, then `n - 1`, …, then `1`; fail if none succeeds.
(The `0`-consumption case is handled separately by the caller.) -/
def tryAtLeast (k : Nat → Option Nat) (i : Nat) : Nat → Option Nat
  | 0 => none
  | m + 1 =>
    match k (i + (m + 1)) with
    | some r => some r
    | none => tryAtLeast k i m

/-- Lazy repetition over characters satisfying `p`: try the continuation at the
current position first, then consume one more matching character and retry. -/
def lazyRun (s : List Char) (p : Char → Bool) (k : Nat → Option Nat) : Nat → Nat → Option Nat
  | 0, i => k i
  | fuel + 1, i =>
    match k i with
    | some r => some r
    | none =>
      match s.get? i with
      | some c => if p c then lazyRun s p k fuel (i + 1) else none
      | none => none

/-- Backtracking matcher.  `matchRe s re i k` attempts to match `re` in `s`
starting at position `i` and calls the continuation `k` with the end position;
alternatives are explored in Python's priority order and the first overall
success is returned.  `bolA`/`eolA` are the `re.MULTILINE` `^`/`$` anchors. -/
def matchRe (s : List Char) : RE → Nat → (Nat → Option Nat) → Option Nat
  | .eps, i, k => k i
  | .pred p, i, k =>
    match s.get? i with
    | some c => if p c then k (i + 1) else none
    | none => none
  | .cat a b, i, k => matchRe s a i (fun j => matchRe s b j k)
  | .alt a b, i, k =>
    match matchRe s a i k with
    | some r => some r
    | none => matchRe s b i k
  | .starG p, i, k =>
    match tryAtLeast k i (runLen s p (s.length + 1) i) with
    | some r => some r
    | none => k i
  | .starL p, i, k => lazyRun s p k (s.length + 1) i
  | .plusG p, i, k =>
    match tryAtLeast k i (runLen s p (s.length + 1) i) with
    | some r => some r
    | none => none
  | .bolA, i, k => if i = 0 ∨ s.get? (i - 1) = some '\n' then k i else none
  | .eolA, i, k => if i = s.length ∨ s.get? i = some '\n' then k i else none
  | .look a, i, k =>
    match matchRe s a i (fun j => some j) with
    | some _ => k i
    | none => none

/-- Sequential composition of a list of regexes. -/
def reSeq (l : List RE) : RE := l.foldr RE.cat RE.eps

/-- Alternation of a list of regexes, first alternative highest priority. -/
def reAlts : List RE → RE
  | [] => RE.pred (fun _ => false)
  | [a] => a
  | a :: rest => RE.alt a (reAlts rest)

/-- Greedy optional element (`x?`). -/
def reOpt (a : RE) : RE := RE.alt a RE.eps

/-- Case-sensitive literal. -/
def litCS (w : String) : RE :=
  w.data.foldr (fun c r => RE.cat (RE.pred (fun x => x = c)) r) RE.eps

/-- Case-insensitive literal (`re.IGNORECASE`). -/
def litCI (w : String) : RE :=
  w.data.foldr (fun c r => RE.cat (RE.pred (fun x => x.toLower = c.toLower)) r) RE.eps

/-- Character class given by an explicit list, e.g. `[Tt]`. -/
def chCl (cs : List Char) : RE := RE.pred (fun x => x ∈ cs)

/-- ASCII `\s`. -/
def pySpace (c : Char) : Bool :=
  c = ' ' ∨ c = '\t' ∨ c = '\n' ∨ c = '\r' ∨ c = '\x0b' ∨ c = '\x0c'

/-- ASCII `\d`. -/
def pyDigit (c : Char) : Bool := '0' ≤ c ∧ c ≤ '9'

/-- `\s+` -/
def sp1 : RE := RE.plusG pySpace

/-- `\s*` -/
def sp0 : RE := RE.starG pySpace

/-- Decimal value of a digit string. -/
def digitsVal (s : List Char) : Nat :=
  s.foldl (fun a c => a * 10 + (c.toNat - '0'.toNat)) 0

/-- `re.findall` for a pattern of the shape `prefix · (\d+)` (every labelled
pattern in the scripts ends in `#(\d+)`; `re` carries the prefix including the
`#`).  Scans start positions left to right; on a match the scan resumes after
the digits (matches never have zero width: each contains `#` and a digit). -/
def findallNumAux (s : List Char) (re : RE) : Nat → Nat → List Nat
  | 0, _ => []
  | fuel + 1, i =>
    if i > s.length then []
    else
      match matchRe s re i (fun j => if 0 < runLen s pyDigit (s.length + 1) j then some j else none) with
      | some j =>
        let d := runLen s pyDigit (s.length + 1) j
        digitsVal ((s.drop j).take d) :: findallNumAux s re fuel (j + d)
      | none => findallNumAux s re fuel (i + 1)

/-- The digit-capturing `findall`; fuel `s.length + 2` covers all scan steps. -/
def findallNum (s : List Char) (re : RE) : List Nat :=
  findallNumAux s re (s.length + 2) 0

/-- `re.findall` returning whole matches (no capture group), used for the
`## Traceability` section scan.  A zero-width match advances the scan by one
position, as in Python. -/
def findallSecAux (s : List Char) (re : RE) : Nat → Nat → List (List Char)
  | 0, _ => []
  | fuel + 1, i =>
    if i > s.length then []
    else
      match matchRe s re i (fun j => some j) with
      | some j =>
        ((s.drop i).take (j - i)) ::
          (if j > i then findallSecAux s re fuel j else findallSecAux s re fuel (i + 1))
      | none => findallSecAux s re fuel (i + 1)

/-- Whole-match `findall`. -/
def findallSec (s : List Char) (re : RE) : List (List Char) :=
  findallSecAux s re (s.length + 2) 0

/-- `list(dict.fromkeys(l))`: deduplicate keeping the first occurrence of each
element, preserving first-seen order.  `seen` accumulates emitted elements. -/
def dedupFirstAux {α : Type} [DecidableEq α] (seen : List α) : List α → List α
  | [] => []
  | a :: rest =>
    if a ∈ seen then dedupFirstAux seen rest
    else a :: dedupFirstAux (a :: seen) rest

/-- `list(dict.fromkeys(l))`. -/
def dedupFirst {α : Type} [DecidableEq α] (l : List α) : List α := dedupFirstAux [] l

/-- Python `needle in hay` on strings (contiguous substring test). -/
def subOf (needle : List Char) : List Char → Bool
  | [] => needle = ([] : List Char)
  | c :: rest => needle.isPrefixOf (c :: rest) || subOf needle rest

/-- `set.add` on an insertion-ordered set model. -/
def setAdd {α : Type} [DecidableEq α] (l : List α) (x : α) : List α :=
  if x ∈ l then l else l ++ [x]

/-- Insertion into an ascending list (for `sorted`). -/
def insertNat (n : Nat) : List Nat → List Nat
  | [] => [n]
  | m :: rest => if n ≤ m then n :: m :: rest else m :: insertNat n rest

/-- `sorted` on distinct naturals (the script sorts the set of reference
numbers ascending by numeric value). -/
def sortNats : List Nat → List Nat
  | [] => []
  | n :: rest => insertNat n (sortNats rest)

namespace TraceJson

/-- `\*\*(?:Traces?\s+to|Parent|Traces-to)\*\*:\s*#` (inline bold, flags I|M);
the trailing `(\d+)` capture is supplied by `findallNum`. -/
def patTraces1 : RE :=
  reSeq [litCS "**",
    reAlts [reSeq [litCI "Trace", reOpt (litCI "s"), sp1, litCI "to"],
      litCI "Parent", litCI "Traces-to"],
    litCS "**:", sp0, litCS "#"]

/-- `(?:^|\n)(?:Traces?\s+to|Parent|Traces-to):\s*#` (inline bare, flags I|M). -/
def patTraces2 : RE :=
  reSeq [RE.alt RE.bolA (litCS "\n"),
    reAlts [reSeq [litCI "Trace", reOpt (litCI "s"), sp1, litCI "to"],
      litCI "Parent", litCI "Traces-to"],
    litCS ":", sp0, litCS "#"]

/-- `\*\*(?:Depends?\s+on|Depends-on)\*\*:\s*#` -/
def patDepends1 : RE :=
  reSeq [litCS "**",
    reAlts [reSeq [litCI "Depend", reOpt (litCI "s"), sp1, litCI "on"], litCI "Depends-on"],
    litCS "**:", sp0, litCS "#"]

/-- `(?:^|\n)(?:Depends?\s+on|Depends-on):\s*#` -/
def patDepends2 : RE :=
  reSeq [RE.alt RE.bolA (litCS "\n"),
    reAlts [reSeq [litCI "Depend", reOpt (litCI "s"), sp1, litCI "on"], litCI "Depends-on"],
    litCS ":", sp0, litCS "#"]

/-- `\*\*(?:Verified\s+by|Test|Verified-by|Verifies\s+Requirements?)\*\*:\s*#` -/
def patVerified1 : RE :=
  reSeq [litCS "**",
    reAlts [reSeq [litCI "Verified", sp1, litCI "by"], litCI "Test", litCI "Verified-by",
      reSeq [litCI "Verifies", sp1, litCI "Requirement", reOpt (litCI "s")]],
    litCS "**:", sp0, litCS "#"]

/-- `(?:^|\n)(?:Verified\s+by|Test|Verified-by|Verifies\s+Requirements?):\s*#` -/
def patVerified2 : RE :=
  reSeq [RE.alt RE.bolA (litCS "\n"),
    reAlts [reSeq [litCI "Verified", sp1, litCI "by"], litCI "Test", litCI "Verified-by",
      reSeq [litCI "Verifies", sp1, litCI "Requirement", reOpt (litCI "s")]],
    litCS ":", sp0, litCS "#"]

/-- `\*\*(?:Implemented\s+by|Implements?|Implemented-by)\*\*:\s*#` -/
def patImplemented1 : RE :=
  reSeq [litCS "**",
    reAlts [reSeq [litCI "Implemented", sp1, litCI "by"],
      reSeq [litCI "Implement", reOpt (litCI "s")], litCI "Implemented-by"],
    litCS "**:", sp0, litCS "#"]

/-- `(?:^|\n)(?:Implemented\s+by|Implements?|Implemented-by):\s*#` -/
def patImplemented2 : RE :=
  reSeq [RE.alt RE.bolA (litCS "\n"),
    reAlts [reSeq [litCI "Implemented", sp1, litCI "by"],
      reSeq [litCI "Implement", reOpt (litCI "s")], litCI "Implemented-by"],
    litCS ":", sp0, litCS "#"]

/-- `(?:\s+Requirements?)?` -/
def optReqSuffix : RE := reOpt (reSeq [sp1, litCI "Requirement", reOpt (litCI "s")])

/-- `[^#]*?(?:^|\n)\s*-?\s*#` — the list tail shared by the
`section_patterns` (flags I|M|S; `.` does not occur, `^` is MULTILINE). -/
def secTail : RE :=
  reSeq [RE.starL (fun c => ¬ c = '#'), RE.alt RE.bolA (litCS "\n"),
    sp0, reOpt (litCS "-"), sp0, litCS "#"]

/-- `\*\*(?:Traces?\s+to|Parent|Satisfies|Addresses)(?:\s+Requirements?)?\*\*:` + list tail. -/
def secTraces : RE :=
  reSeq [litCS "**",
    reAlts [reSeq [litCI "Trace", reOpt (litCI "s"), sp1, litCI "to"],
      litCI "Parent", litCI "Satisfies", litCI "Addresses"],
    optReqSuffix, litCS "**:", secTail]

/-- `\*\*(?:Depends?\s+on|Dependencies|Required)\*\*:` + list tail. -/
def secDepends : RE :=
  reSeq [litCS "**",
    reAlts [reSeq [litCI "Depend", reOpt (litCI "s"), sp1, litCI "on"],
      litCI "Dependencies", litCI "Required"],
    litCS "**:", secTail]

/-- `\*\*(?:Verified\s+by|Test|Validates?|Verifies)(?:\s+Requirements?)?\*\*:` + list tail. -/
def secVerified : RE :=
  reSeq [litCS "**",
    reAlts [reSeq [litCI "Verified", sp1, litCI "by"], litCI "Test",
      reSeq [litCI "Validate", reOpt (litCI "s")], litCI "Verifies"],
    optReqSuffix, litCS "**:", secTail]

/-- `\*\*(?:Implemented\s+by|Implements?)(?:\s+Requirements?)?\*\*:` + list tail. -/
def secImplemented : RE :=
  reSeq [litCS "**",
    reAlts [reSeq [litCI "Implemented", sp1, litCI "by"],
      reSeq [litCI "Implement", reOpt (litCI "s")]],
    optReqSuffix, litCS "**:", secTail]

/-- `\*\*(?:Addresses|Satisfies)\s+Requirements?\*\*:[^#]*?#` (architecture). -/
def archTraces : RE :=
  reSeq [litCS "**", reAlts [litCI "Addresses", litCI "Satisfies"],
    sp1, litCI "Requirement", reOpt (litCI "s"), litCS "**:",
    RE.starL (fun c => ¬ c = '#'), litCS "#"]

/-- `\*\*(?:Components?\s+Affected|Architecture\s+Decisions?)\*\*:[^#]*?#` -/
def archImplemented : RE :=
  reSeq [litCS "**",
    reAlts [reSeq [litCI "Component", reOpt (litCI "s"), sp1, litCI "Affected"],
      reSeq [litCI "Architecture", sp1, litCI "Decision", reOpt (litCI "s")]],
    litCS "**:", RE.starL (fun c => ¬ c = '#'), litCS "#"]

/-- `\*\*(?:Quality\s+Scenarios?|Requirements?\s+Verified)\*\*:[^#]*?#` -/
def archVerified : RE :=
  reSeq [litCS "**",
    reAlts [reSeq [litCI "Quality", sp1, litCI "Scenario", reOpt (litCI "s")],
      reSeq [litCI "Requirement", reOpt (litCI "s"), sp1, litCI "Verified"]],
    litCS "**:", RE.starL (fun c => ¬ c = '#'), litCS "#"]

/-- `##\s+(?:Traceability|Traces\s+To).*?(?=##|$)` with flags I|M|S: `.` matches
any character (DOTALL) and the `$` inside the lookahead is the MULTILINE `$`. -/
def secScan : RE :=
  reSeq [litCS "##", sp1,
    reAlts [litCI "Traceability", reSeq [litCI "Traces", sp1, litCI "To"]],
    RE.starL (fun _ => true), RE.look (RE.alt (litCS "##") RE.eolA)]

/-- `#(\d+)` (the per-section reference scan); prefix is just `#`. -/
def refHash : RE := litCS "#"

/-- Raw `traces_to` matches before the final dedup pass: the two inline
patterns, the section pattern and the architecture pattern in source order,
then the `## Traceability` section scan, whose references are appended only
if not already present (`if ref_int not in links['traces_to']`). -/
def rawTraces (b : List Char) : List Nat :=
  ((findallSec b secScan).flatMap (fun sec => findallNum sec refHash)).foldl
    (fun acc r => if r ∈ acc then acc else acc ++ [r])
    (findallNum b patTraces1 ++ findallNum b patTraces2 ++
      findallNum b secTraces ++ findallNum b archTraces)

/-- Raw `depends_on` matches (no architecture pattern for this category). -/
def rawDepends (b : List Char) : List Nat :=
  findallNum b patDepends1 ++ findallNum b patDepends2 ++ findallNum b secDepends

/-- Raw `verified_by` matches. -/
def rawVerified (b : List Char) : List Nat :=
  findallNum b patVerified1 ++ findallNum b patVerified2 ++
    findallNum b secVerified ++ findallNum b archVerified

/-- Raw `implemented_by` matches. -/
def rawImplemented (b : List Char) : List Nat :=
  findallNum b patImplemented1 ++ findallNum b patImplemented2 ++
    findallNum b secImplemented ++ findallNum b archImplemented

/-- `extract_issue_links(body)`.  A falsy body (`None` or `""`) yields the
empty mapping.  Otherwise the `defaultdict` acquires exactly the four category
keys, in the insertion order of the first extraction loop, each bound to its
matches deduplicated by `list(dict.fromkeys(...))`. -/
def extract_issue_links (body : Option (List Char)) : List (String × List Nat) :=
  match body with
  | none => []
  | some b =>
    if b = [] then []
    else
      [("traces_to", dedupFirst (rawTraces b)),
       ("depends_on", dedupFirst (rawDepends b)),
       ("verified_by", dedupFirst (rawVerified b)),
       ("implemented_by", dedupFirst (rawImplemented b))]

end TraceJson

namespace TraceJson

/-- The alternatives of `^(StR|REQ-F|REQ-NF|ADR|ARC-C|QA-SC|TEST)` in source
order (priority order of the anchored alternation). -/
def titleTokens : List String := ["StR", "REQ-F", "REQ-NF", "ADR", "ARC-C", "QA-SC", "TEST"]

/-- Case-insensitive anchored literal match, the semantics of one alternative
of the title regex under `re.IGNORECASE`. -/
def ciPrefixMatch (tok : String) (t : List Char) : Bool :=
  decide ((t.take tok.length).map Char.toLower = tok.data.map Char.toLower)

/-- `re.match(r'^(StR|...|TEST)', title, re.IGNORECASE)` followed by
`.group(1).upper()`: the first alternative that matches a prefix of the title
wins, and the result is the matched slice of the title, uppercased. -/
def titleMatch (t : List Char) : Option String :=
  match titleTokens.find? (fun tok => ciPrefixMatch tok t) with
  | some tok => some (String.mk ((t.take tok.length).map Char.toUpper))
  | none => none

/-- `label_map` of `get_requirement_type`, in source order. -/
def label_map : List (String × String) :=
  [("type:stakeholder-requirement", "StR"),
   ("type:requirement:functional", "REQ-F"),
   ("type:requirement:non-functional", "REQ-NF"),
   ("type:architecture:decision", "ADR"),
   ("type:architecture:component", "ARC-C"),
   ("type:architecture:quality-scenario", "QA-SC"),
   ("type:test-case", "TEST"),
   ("type:test-plan", "TEST"),
   ("stakeholder-requirement", "StR"),
   ("functional-requirement", "REQ-F"),
   ("non-functional", "REQ-NF"),
   ("architecture-decision", "ADR"),
   ("architecture-component", "ARC-C"),
   ("quality-scenario", "QA-SC"),
   ("test-case", "TEST"),
   ("test-plan", "TEST")]

/-- Python `needle in label.lower()`. -/
def hasSub (ll : List Char) (needle : String) : Bool := subOf needle.data ll

/-- The body of the per-label loop of `get_requirement_type`: exact
`label_map` membership first, then the substring chain on the same label;
`none` means fall through to the next label. -/
def labelStep (label : String) : Option String :=
  match label_map.lookup label with
  | some t => some t
  | none =>
    let ll := label.data.map Char.toLower
    if hasSub ll "stakeholder" then some "StR"
    else if hasSub ll "functional" && ! hasSub ll "non" then some "REQ-F"
    else if hasSub ll "non-functional" then some "REQ-NF"
    else if hasSub ll "decision" then some "ADR"
    else if hasSub ll "component" then some "ARC-C"
    else if hasSub ll "quality" || hasSub ll "scenario" then some "QA-SC"
    else if hasSub ll "test" then some "TEST"
    else none

/-- The `for label in labels` loop: the first label on which `labelStep`
produces a type decides the result; otherwise `UNKNOWN`. -/
def labelLoop : List String → String
  | [] => "UNKNOWN"
  | label :: rest =>
    match labelStep label with
    | some t => t
    | none => labelLoop rest

/-- `get_requirement_type(title, labels)`: title-prefix regex first, then the
label loop. -/
def get_requirement_type (title : String) (labels : List String) : String :=
  match titleMatch title.data with
  | some t => t
  | none => labelLoop labels

end TraceJson

/-- One issue record as consumed by `main` (`issue.number`, `issue.title`,
label names, `issue.body` — possibly absent —, `issue.state`, URL).  `state`
and `url` only feed the unmodelled display fields of `items`. -/
structure Issue : Type where
  number : Nat
  title : String
  labels : List String
  body : Option String
  state : String
  url : String
deriving DecidableEq

namespace TraceJson

/-- `f"#{issue.number}"` -/
def issueId (is : Issue) : String := "#" ++ Nat.repr is.number

/-- Resolved requirement type of an issue. -/
def reqTypeOf (is : Issue) : String := get_requirement_type is.title is.labels

/-- `links = extract_issue_links(issue.body or "")` — note `body or ""`
turns an absent body into `""`, which `extract_issue_links` maps to `{}`. -/
def linksOf (is : Issue) : List (String × List Nat) :=
  extract_issue_links (some (match is.body with | some b => b.data | none => []))

/-- All link numbers of an issue, categories concatenated in key order
(the values of the links dict). -/
def joinNums (is : Issue) : List Nat := ((linksOf is).map Prod.snd).flatten

/-- `all_refs` / `all_linked_issues` as an insertion-ordered set of numbers. -/
def linkNumsOf (is : Issue) : List Nat := dedupFirst (joinNums is)

/-- `item['references'] = sorted(all_refs, key=lambda x: int(x[1:]))`. -/
def referencesOf (is : Issue) : List String :=
  (sortNats (linkNumsOf is)).map (fun n => "#" ++ Nat.repr n)

/-- `forward_links[issue_id] = item['references']` (dict assignment). -/
def assocSet (m : List (String × List String)) (k : String) (v : List String) :
    List (String × List String) :=
  match m with
  | [] => [(k, v)]
  | (k0, v0) :: rest => if k = k0 then (k, v) :: rest else (k0, v0) :: assocSet rest k v

/-- `backward_links[ref].append(issue_id)` on a `defaultdict(list)`. -/
def bwAdd (m : List (String × List String)) (k : String) (v : String) :
    List (String × List String) :=
  match m with
  | [] => [(k, [v])]
  | (k0, v0) :: rest => if k = k0 then (k0, v0 ++ [v]) :: rest else (k0, v0) :: bwAdd rest k v

/-- The `forward_links` mapping after the main loop. -/
def forward_linksOf (issues : List Issue) : List (String × List String) :=
  issues.foldl (fun fl is => assocSet fl (issueId is) (referencesOf is)) []

/-- The `backward_links` mapping after the main loop. -/
def backward_linksOf (issues : List Issue) : List (String × List String) :=
  issues.foldl (fun bl is => (referencesOf is).foldl (fun bl r => bwAdd bl r (issueId is)) bl) []

/-- Membership of `x` in the list bound to key `k` (an absent key has no
members, it is not defaulted). -/
def linkMem (m : List (String × List String)) (k : String) (x : String) : Bool :=
  match m.lookup k with
  | some l => decide (x ∈ l)
  | none => false

/-- `req_type in ['REQ-F', 'REQ-NF']`. -/
def reqGuard (is : Issue) : Bool := reqTypeOf is = "REQ-F" ∨ reqTypeOf is = "REQ-NF"

/-- The `requirements` list accumulated by the main loop. -/
def requirementsOf (issues : List Issue) : List String :=
  issues.foldl (fun acc is => if reqGuard is then acc ++ [issueId is] else acc) []

/-- `requirements_with_any_link` (`if item['references']: add(issue_id)`). -/
def withAnyLinkOf (issues : List Issue) : List String :=
  issues.foldl
    (fun acc is =>
      if reqGuard is then (if referencesOf is ≠ [] then setAdd acc (issueId is) else acc)
      else acc) []

/-- `requirements_with_test` (`if links.get('verified_by'): add(issue_id)`;
an absent key or empty list is falsy). -/
def withTestOf (issues : List Issue) : List String :=
  issues.foldl
    (fun acc is =>
      if reqGuard is then
        (if (match (linksOf is).lookup "verified_by" with | some l => l | none => []) ≠ []
         then setAdd acc (issueId is) else acc)
      else acc) []

/-- `repo.get_issue(ref_num)`: resolution against the full repository issue
collection; a failed fetch (no such issue) is caught and skipped. -/
def repoFind (repo : List Issue) (n : Nat) : Option Issue :=
  repo.find? (fun is => is.number = n)

/-- The `for ref_num in all_linked_issues` loop: accumulates
`requirements_with_adr` and `requirements_with_scenario`.  The final `elif`
branch (an ADR/ARC-C source adding `#{ref_num}`) is transcribed although it is
unreachable: the loop only runs when `req_type` is REQ-F/REQ-NF. -/
def refScan (repo : List Issue) (req_type iid : String) :
    List Nat → List String × List String → List String × List String
  | [], st => st
  | n :: rest, (adr, scen) =>
    match repoFind repo n with
    | none => refScan repo req_type iid rest (adr, scen)
    | some ri =>
      let ref_type := reqTypeOf ri
      if ref_type = "ADR" then refScan repo req_type iid rest (setAdd adr iid, scen)
      else if ref_type = "QA-SC" then refScan repo req_type iid rest (adr, setAdd scen iid)
      else if (req_type = "ADR" ∨ req_type = "ARC-C") ∧ (ref_type = "REQ-F" ∨ ref_type = "REQ-NF")
        then refScan repo req_type iid rest (setAdd adr ("#" ++ Nat.repr n), scen)
      else refScan repo req_type iid rest (adr, scen)

/-- `(requirements_with_adr, requirements_with_scenario)` after the main
loop.  `repo` is the repository collection `repo.get_issue` draws from;
`issues` is the fetched (label-filtered) list the graph is built over. -/
def adrScenOf (repo issues : List Issue) : List String × List String :=
  issues.foldl
    (fun st is =>
      if reqGuard is then refScan repo (reqTypeOf is) (issueId is) (linkNumsOf is) st else st)
    ([], [])

/-- Does any reference of the list resolve in the repository to an issue of
type ADR?  (The decidable mirror of the membership condition of
`requirements_with_adr`.) -/
def anyADR (repo : List Issue) (nums : List Nat) : Bool :=
  nums.any (fun n =>
    match repoFind repo n with
    | some ri => decide (reqTypeOf ri = "ADR")
    | none => false)

/-- One metrics entry: `{'coverage_pct': …, 'total': …, 'linked': …}`. -/
structure Metric : Type where
  coverage_pct : ℚ
  total : Nat
  linked : Nat
deriving DecidableEq

/-- The `metrics` mapping.  The `requirement` entry guards its division by
`if total_reqs else 0`; the three `requirement_to_*` entries exist only under
`if total_reqs > 0`. -/
def metricsOf (repo issues : List Issue) : List (String × Metric) :=
  let total_reqs := (requirementsOf issues).length
  let anyLinked := (withAnyLinkOf issues).length
  let adrLinked := (adrScenOf repo issues).1.length
  let scenLinked := (adrScenOf repo issues).2.length
  let testLinked := (withTestOf issues).length
  [("requirement",
    ⟨if total_reqs = 0 then 0 else (anyLinked : ℚ) / (total_reqs : ℚ) * 100,
     total_reqs, anyLinked⟩)] ++
  (if 0 < total_reqs then
    [("requirement_to_ADR", ⟨(adrLinked : ℚ) / (total_reqs : ℚ) * 100, total_reqs, adrLinked⟩),
     ("requirement_to_scenario", ⟨(scenLinked : ℚ) / (total_reqs : ℚ) * 100, total_reqs, scenLinked⟩),
     ("requirement_to_test", ⟨(testLinked : ℚ) / (total_reqs : ℚ) * 100, total_reqs, testLinked⟩)]
   else [])

end TraceJson

namespace TraceReport

/-- `[Tt]races?\s+to:?\s*#` (case-sensitive; no flags in the report script). -/
def repTraces : RE :=
  reSeq [chCl ['T', 't'], litCS "race", reOpt (litCS "s"), sp1, litCS "to",
    reOpt (litCS ":"), sp0, litCS "#"]

/-- `[Dd]epends?\s+on:?\s*#` -/
def repDepends : RE :=
  reSeq [chCl ['D', 'd'], litCS "epend", reOpt (litCS "s"), sp1, litCS "on",
    reOpt (litCS ":"), sp0, litCS "#"]

/-- `[Vv]erified\s+by:?\s*#` -/
def repVerified : RE :=
  reSeq [chCl ['V', 'v'], litCS "erified", sp1, litCS "by", reOpt (litCS ":"), sp0, litCS "#"]

/-- `[Ii]mplemented\s+by:?\s*#` -/
def repImplemented : RE :=
  reSeq [chCl ['I', 'i'], litCS "mplemented", sp1, litCS "by", reOpt (litCS ":"), sp0, litCS "#"]

/-- `[Rr]efined\s+by:?\s*#` -/
def repRefined : RE :=
  reSeq [chCl ['R', 'r'], litCS "efined", sp1, litCS "by", reOpt (litCS ":"), sp0, litCS "#"]

/-- The mapping the report script returns for a falsy body: all five category
keys are present, each bound to an empty list. -/
def emptyLinks : List (String × List Nat) :=
  [("traces_to", []), ("depends_on", []), ("verified_by", []),
   ("implemented_by", []), ("refined_by", [])]

/-- `extract_links(issue_body)` of the report script: five fixed keys; the
per-category `findall` results are converted to integers with no
deduplication. -/
def extract_links (issue_body : Option (List Char)) : List (String × List Nat) :=
  match issue_body with
  | none => emptyLinks
  | some b =>
    if b = [] then emptyLinks
    else
      [("traces_to", findallNum b repTraces),
       ("depends_on", findallNum b repDepends),
       ("verified_by", findallNum b repVerified),
       ("implemented_by", findallNum b repImplemented),
       ("refined_by", findallNum b repRefined)]

end TraceReport

/-! ## General lemmas about the helper functions -/

theorem mem_dedupFirstAux {α : Type} [DecidableEq α] (x : α) :
    ∀ (l seen : List α), x ∈ dedupFirstAux seen l ↔ x ∈ l ∧ x ∉ seen := by
  intro l
  induction l with
  | nil => intro seen; simp [dedupFirstAux]
  | cons a rest ih =>
    intro seen
    by_cases ha : a ∈ seen
    · simp only [dedupFirstAux, if_pos ha, ih, List.mem_cons]
      constructor
      · rintro ⟨hx, hs⟩; exact ⟨Or.inr hx, hs⟩
      · rintro ⟨hx | hx, hs⟩
        · exact absurd (hx ▸ ha) hs
        · exact ⟨hx, hs⟩
    · simp only [dedupFirstAux, if_neg ha, List.mem_cons, ih]
      by_cases hxa : x = a
      · subst hxa; simp [ha]
      · simp [hxa, List.mem_cons]

theorem mem_dedupFirst {α : Type} [DecidableEq α] (x : α) (l : List α) :
    x ∈ dedupFirst l ↔ x ∈ l := by
  simp [dedupFirst, mem_dedupFirstAux]

theorem nodup_dedupFirstAux {α : Type} [DecidableEq α] :
    ∀ (l seen : List α), (dedupFirstAux seen l).Nodup := by
  intro l
  induction l with
  | nil => intro seen; simp [dedupFirstAux]
  | cons a rest ih =>
    intro seen
    by_cases ha : a ∈ seen
    · simpa [dedupFirstAux, if_pos ha] using ih seen
    · simp only [dedupFirstAux, if_neg ha, List.nodup_cons]
      refine ⟨fun hmem => ?_, ih (a :: seen)⟩
      exact ((mem_dedupFirstAux a rest (a :: seen)).mp hmem).2 (List.mem_cons_self a seen)

theorem nodup_dedupFirst {α : Type} [DecidableEq α] (l : List α) : (dedupFirst l).Nodup :=
  nodup_dedupFirstAux l []

theorem sublist_dedupFirstAux {α : Type} [DecidableEq α] :
    ∀ (l seen : List α), (dedupFirstAux seen l).Sublist l := by
  intro l
  induction l with
  | nil => intro seen; simp [dedupFirstAux]
  | cons a rest ih =>
    intro seen
    by_cases ha : a ∈ seen
    · simpa [dedupFirstAux, if_pos ha] using (ih seen).cons a
    · simpa [dedupFirstAux, if_neg ha] using (ih (a :: seen)).cons₂ a

theorem sublist_dedupFirst {α : Type} [DecidableEq α] (l : List α) :
    (dedupFirst l).Sublist l :=
  sublist_dedupFirstAux l []

theorem mem_setAdd {α : Type} [DecidableEq α] (l : List α) (x y : α) :
    y ∈ setAdd l x ↔ y ∈ l ∨ y = x := by
  unfold setAdd
  by_cases h : x ∈ l
  · simp only [if_pos h]
    exact ⟨Or.inl, fun hc => hc.elim id (fun hyx => hyx ▸ h)⟩
  · simp [if_neg h]

namespace TraceJson

/-- The raw (pre-dedup) match list per category key; empty for a key the
links dict never holds. -/
def rawOf (b : List Char) (k : String) : List Nat :=
  if k = "traces_to" then rawTraces b
  else if k = "depends_on" then rawDepends b
  else if k = "verified_by" then rawVerified b
  else if k = "implemented_by" then rawImplemented b
  else []

end TraceJson

/-! ## Claim theorems -/

/-- C1: the claim states that every reference marker below a `## Traceability`
heading is attributed to `traces_to`, as the source comment ("extract all #N
references" from the section) also says.  The code computes the opposite:
because the section regex is compiled with `re.MULTILINE`, the `$` inside
`(?=##|$)` already matches immediately before the first newline, so the lazy
`.*?` stops there and the scanned "section" is just the heading line; the
bulleted references on the following lines are never seen.  This theorem
evaluates the code on the claim's own scenario: the body
`"## Traceability\n- #3\n- #9"` yields no `traces_to` links at all. -/
theorem C1_code_eval :
    TraceJson.extract_issue_links (some "## Traceability\n- #3\n- #9".data) =
      [("traces_to", []), ("depends_on", []), ("verified_by", []), ("implemented_by", [])] := by
  decide

/-- C2 (counterexample): the claim says both link-extraction functions return
a mapping with no category keys at all on an empty body.  The report script's
`extract_links("")` returns a mapping that does contain the category keys
(each bound to an empty list), so it is not the empty mapping. -/
theorem C2_counterexample :
    (TraceReport.extract_links (some "".data)).lookup "traces_to" = some [] ∧
      ¬ TraceReport.extract_links (some "".data) = [] := by
  decide

/-- C2 (amended): `extract_issue_links` returns the keyless empty mapping for
an empty or absent body; the report script's `extract_links` instead returns
all five category keys, each mapped to an empty list.  Neither raises. -/
theorem C2_amended :
    TraceJson.extract_issue_links none = [] ∧
      TraceJson.extract_issue_links (some "".data) = [] ∧
      TraceReport.extract_links none = TraceReport.emptyLinks ∧
      TraceReport.extract_links (some "".data) = TraceReport.emptyLinks ∧
      TraceReport.emptyLinks.map Prod.fst =
        ["traces_to", "depends_on", "verified_by", "implemented_by", "refined_by"] := by
  exact ⟨rfl, by decide, rfl, by decide, rfl⟩

/-- C3 (counterexample): the claim quantifies over both extraction functions,
but the report script's `extract_links` does not deduplicate: a body
containing the same annotation twice yields a duplicated target. -/
theorem C3_counterexample :
    (TraceReport.extract_links (some "Traces to: #5 Traces to: #5".data)).lookup "traces_to" =
        some [5, 5] ∧
      ¬ ([5, 5] : List Nat).Nodup := by
  decide

/-- C3 (amended): the JSON-generator's `extract_issue_links` does satisfy the
claim: every category list it returns is duplicate-free and is the raw match
list with later duplicates removed (first occurrence kept, first-seen order
preserved): it is a sublist of the raw matches containing exactly the raw
matches' elements.  The report script's `extract_links` does not deduplicate. -/
theorem C3_amended (b : List Char) (k : String) (l : List Nat)
    (h : (TraceJson.extract_issue_links (some b)).lookup k = some l) :
    l.Nodup ∧ l.Sublist (TraceJson.rawOf b k) ∧ ∀ x, x ∈ l ↔ x ∈ TraceJson.rawOf b k := by
  simp only [TraceJson.extract_issue_links] at h
  by_cases hb : b = []
  · rw [if_pos hb] at h; simp [List.lookup] at h
  · rw [if_neg hb] at h
    by_cases h1 : k = "traces_to"
    · subst h1
      simp only [List.lookup, beq_self_eq_true] at h
      cases h
      exact ⟨nodup_dedupFirst _, by simpa [TraceJson.rawOf] using sublist_dedupFirst _,
        by simp [TraceJson.rawOf, mem_dedupFirst]⟩
    · by_cases h2 : k = "depends_on"
      · subst h2
        simp only [List.lookup, show (("depends_on" : String) == "traces_to") = false by decide,
          beq_self_eq_true] at h
        cases h
        exact ⟨nodup_dedupFirst _, by simpa [TraceJson.rawOf] using sublist_dedupFirst _,
          by simp [TraceJson.rawOf, mem_dedupFirst]⟩
      · by_cases h3 : k = "verified_by"
        · subst h3
          simp only [List.lookup, show (("verified_by" : String) == "traces_to") = false by decide,
            show (("verified_by" : String) == "depends_on") = false by decide, beq_self_eq_true] at h
          cases h
          exact ⟨nodup_dedupFirst _, by simpa [TraceJson.rawOf] using sublist_dedupFirst _,
            by simp [TraceJson.rawOf, mem_dedupFirst]⟩
        · by_cases h4 : k = "implemented_by"
          · subst h4
            simp only [List.lookup,
              show (("implemented_by" : String) == "traces_to") = false by decide,
              show (("implemented_by" : String) == "depends_on") = false by decide,
              show (("implemented_by" : String) == "verified_by") = false by decide, beq_self_eq_true] at h
            cases h
            exact ⟨nodup_dedupFirst _, by simpa [TraceJson.rawOf] using sublist_dedupFirst _,
              by simp [TraceJson.rawOf, mem_dedupFirst]⟩
          · exfalso
            simp only [List.lookup] at h
            rw [show ((k == "traces_to") = false) by simpa using h1,
              show ((k == "depends_on") = false) by simpa using h2,
              show ((k == "verified_by") = false) by simpa using h3,
              show ((k == "implemented_by") = false) by simpa using h4] at h
            cases h

/-- C3 witness: a body whose raw `traces_to` matches are `[5, 5]` (the bold
and the bare inline pattern each capture the same reference) is returned
deduplicated as `[5]`. -/
theorem C3_witness :
    (TraceJson.extract_issue_links (some "**Traces to**: #5\nTraces to: #5".data)).lookup
        "traces_to" = some [5] ∧
      ([5] : List Nat).Nodup ∧
        ([5] : List Nat).Sublist
          (TraceJson.rawOf "**Traces to**: #5\nTraces to: #5".data "traces_to") ∧
        ∀ x, x ∈ ([5] : List Nat) ↔
          x ∈ TraceJson.rawOf "**Traces to**: #5\nTraces to: #5".data "traces_to" :=
  ⟨by decide, C3_amended _ _ _ (by decide)⟩

/-- C10: for every non-empty body the returned mapping has exactly the four
category keys `traces_to`, `depends_on`, `verified_by`, `implemented_by` in
this order (the `defaultdict` acquires all four regardless of matches), and
only an empty or absent body yields the keyless mapping. -/
theorem C10_confirmed (b : List Char) (hb : ¬ b = []) :
    (TraceJson.extract_issue_links (some b)).map Prod.fst =
        ["traces_to", "depends_on", "verified_by", "implemented_by"] ∧
      TraceJson.extract_issue_links none = [] ∧
      TraceJson.extract_issue_links (some []) = [] := by
  refine ⟨?_, rfl, rfl⟩
  simp [TraceJson.extract_issue_links, hb]

/-- C10 witness at the one-character body `"x"`. -/
theorem C10_witness :
    ¬ ("x".data = ([] : List Char)) ∧
      (TraceJson.extract_issue_links (some "x".data)).map Prod.fst =
          ["traces_to", "depends_on", "verified_by", "implemented_by"] ∧
        TraceJson.extract_issue_links none = [] ∧
        TraceJson.extract_issue_links (some []) = [] :=
  ⟨by decide, C10_confirmed "x".data (by decide)⟩

/-- C4 (counterexample): the claim says an exact label match is a complete
stage that a substring heuristic on some other label can never preempt.  In
the code the substring chain runs per label inside the same loop iteration:
with labels `["my-component", "type:test-case"]` the first label has no exact
match but contains `"component"`, so classification returns `ARC-C` before the
exact match `type:test-case ↦ TEST` of the second label is ever consulted. -/
theorem C4_counterexample :
    TraceJson.get_requirement_type "Some issue" ["my-component", "type:test-case"] = "ARC-C" ∧
      TraceJson.label_map.lookup "type:test-case" = some "TEST" ∧
      ¬ (("ARC-C" : String) = "TEST") := by
  decide

/-- C4 (amended): labels are scanned in order and, for each single label,
exact `label_map` membership is checked before the substring heuristic on that
same label; the first label yielding either kind of match decides the result.
Consequently an exact match wins only over matches of later labels: if every
earlier label yields no match at all, an exact label match is returned. -/
theorem C4_amended (title : String) (pre post : List String) (lab t : String)
    (hT : TraceJson.titleMatch title.data = none)
    (hpre : ∀ l ∈ pre, TraceJson.labelStep l = none)
    (hexact : TraceJson.label_map.lookup lab = some t) :
    TraceJson.get_requirement_type title (pre ++ lab :: post) = t := by
  unfold TraceJson.get_requirement_type
  rw [hT]
  induction pre with
  | nil =>
    simp only [List.nil_append, TraceJson.labelLoop, TraceJson.labelStep, hexact]
  | cons a rest ih =>
    have ha : TraceJson.labelStep a = none := hpre a (List.mem_cons_self a rest)
    simp only [List.cons_append, TraceJson.labelLoop, ha]
    exact ih (fun l hl => hpre l (List.mem_cons_of_mem a hl))

/-- C4 witness: with no earlier matching label, the exact match
`type:test-case ↦ TEST` is returned. -/
theorem C4_witness :
    TraceJson.titleMatch "Misc issue".data = none ∧
      (∀ l ∈ ["misc-label"], TraceJson.labelStep l = none) ∧
      TraceJson.label_map.lookup "type:test-case" = some "TEST" ∧
      TraceJson.get_requirement_type "Misc issue" (["misc-label"] ++ "type:test-case" :: []) =
        "TEST" :=
  ⟨by decide, by decide, by decide, C4_amended _ _ _ _ _ (by decide) (by decide) (by decide)⟩

/-- C9 (counterexample): the claim says a title beginning `str-001` yields the
canonical type `StR`, but the code returns the uppercased matched text,
`"STR"`. -/
theorem C9_counterexample :
    TraceJson.get_requirement_type "str-001" [] = "STR" ∧ ¬ (("STR" : String) = "StR") := by
  decide

theorem ciPrefixMatch_iff (tok : String) (t : List Char) :
    TraceJson.ciPrefixMatch tok t = true ↔
      (t.take tok.length).map Char.toLower = tok.data.map Char.toLower := by
  simp [TraceJson.ciPrefixMatch]

theorem ciPrefix_incompat (A B : String) (t : List Char) (m : Nat)
    (hmA : m ≤ A.length) (hmB : m ≤ B.length)
    (hne : ¬ (A.data.map Char.toLower).take m = (B.data.map Char.toLower).take m)
    (hA : TraceJson.ciPrefixMatch A t = true) (hB : TraceJson.ciPrefixMatch B t = true) :
    False := by
  rw [ciPrefixMatch_iff] at hA hB
  apply hne
  have hA' : (List.map Char.toLower t).take A.length = A.data.map Char.toLower := by
    rw [← List.map_take]; exact hA
  have hB' : (List.map Char.toLower t).take B.length = B.data.map Char.toLower := by
    rw [← List.map_take]; exact hB
  have kA : (A.data.map Char.toLower).take m = (List.map Char.toLower t).take m := by
    rw [← hA', List.take_take, Nat.min_eq_left hmA]
  have kB : (B.data.map Char.toLower).take m = (List.map Char.toLower t).take m := by
    rw [← hB', List.take_take, Nat.min_eq_left hmB]
  rw [kA, kB]

theorem ciPrefix_false_of (A B : String) (t : List Char) (m : Nat)
    (hmA : m ≤ A.length) (hmB : m ≤ B.length)
    (hne : ¬ (A.data.map Char.toLower).take m = (B.data.map Char.toLower).take m)
    (hB : TraceJson.ciPrefixMatch B t = true) :
    TraceJson.ciPrefixMatch A t = false := by
  cases hx : TraceJson.ciPrefixMatch A t with
  | false => rfl
  | true => exact (ciPrefix_incompat A B t m hmA hmB hne hx hB).elim

/-- C9 (amended): for every title beginning, in any letter case, with one of
the recognized tokens, `get_requirement_type` returns the UPPERCASED matched
prefix of the title.  For `REQ-F`, `REQ-NF`, `ADR`, `ARC-C`, `QA-SC`, `TEST`
this coincides with the canonical spelling, which is already uppercase, but an
`StR`-prefixed title yields `"STR"`, not the canonical `"StR"`. -/
theorem C9_amended (tok : String) (htok : tok ∈ TraceJson.titleTokens)
    (pre rest : List Char) (labels : List String)
    (h : pre.map Char.toLower = tok.data.map Char.toLower) :
    TraceJson.get_requirement_type (String.mk (pre ++ rest)) labels =
      String.mk (pre.map Char.toUpper) := by
  have hlen : pre.length = tok.length := by
    have hl := congrArg List.length h
    simp only [List.length_map] at hl
    exact hl
  have htake : (pre ++ rest).take tok.length = pre := by
    rw [← hlen]; exact List.take_left pre rest
  have hmatch : TraceJson.ciPrefixMatch tok (pre ++ rest) = true := by
    rw [ciPrefixMatch_iff, htake, h]
  have hcase : tok = "StR" ∨ tok = "REQ-F" ∨ tok = "REQ-NF" ∨ tok = "ADR" ∨
      tok = "ARC-C" ∨ tok = "QA-SC" ∨ tok = "TEST" := by
    simpa [TraceJson.titleTokens] using htok
  unfold TraceJson.get_requirement_type TraceJson.titleMatch
  rcases hcase with hc | hc | hc | hc | hc | hc | hc <;> subst hc
  · simp only [TraceJson.titleTokens, show (String.mk (pre ++ rest)).data = pre ++ rest from rfl,
      List.find?, hmatch, htake]
  · have f1 := ciPrefix_false_of "StR" "REQ-F" (pre ++ rest) 1 (by decide) (by decide)
      (by decide) hmatch
    simp only [TraceJson.titleTokens, show (String.mk (pre ++ rest)).data = pre ++ rest from rfl,
      List.find?, f1, hmatch, htake]
  · have f1 := ciPrefix_false_of "StR" "REQ-NF" (pre ++ rest) 1 (by decide) (by decide)
      (by decide) hmatch
    have f2 := ciPrefix_false_of "REQ-F" "REQ-NF" (pre ++ rest) 5 (by decide) (by decide)
      (by decide) hmatch
    simp only [TraceJson.titleTokens, show (String.mk (pre ++ rest)).data = pre ++ rest from rfl,
      List.find?, f1, f2, hmatch, htake]
  · have f1 := ciPrefix_false_of "StR" "ADR" (pre ++ rest) 1 (by decide) (by decide)
      (by decide) hmatch
    have f2 := ciPrefix_false_of "REQ-F" "ADR" (pre ++ rest) 1 (by decide) (by decide)
      (by decide) hmatch
    have f3 := ciPrefix_false_of "REQ-NF" "ADR" (pre ++ rest) 1 (by decide) (by decide)
      (by decide) hmatch
    simp only [TraceJson.titleTokens, show (String.mk (pre ++ rest)).data = pre ++ rest from rfl,
      List.find?, f1, f2, f3, hmatch, htake]
  · have f1 := ciPrefix_false_of "StR" "ARC-C" (pre ++ rest) 1 (by decide) (by decide)
      (by decide) hmatch
    have f2 := ciPrefix_false_of "REQ-F" "ARC-C" (pre ++ rest) 1 (by decide) (by decide)
      (by decide) hmatch
    have f3 := ciPrefix_false_of "REQ-NF" "ARC-C" (pre ++ rest) 1 (by decide) (by decide)
      (by decide) hmatch
    have f4 := ciPrefix_false_of "ADR" "ARC-C" (pre ++ rest) 2 (by decide) (by decide)
      (by decide) hmatch
    simp only [TraceJson.titleTokens, show (String.mk (pre ++ rest)).data = pre ++ rest from rfl,
      List.find?, f1, f2, f3, f4, hmatch, htake]
  · have f1 := ciPrefix_false_of "StR" "QA-SC" (pre ++ rest) 1 (by decide) (by decide)
      (by decide) hmatch
    have f2 := ciPrefix_false_of "REQ-F" "QA-SC" (pre ++ rest) 1 (by decide) (by decide)
      (by decide) hmatch
    have f3 := ciPrefix_false_of "REQ-NF" "QA-SC" (pre ++ rest) 1 (by decide) (by decide)
      (by decide) hmatch
    have f4 := ciPrefix_false_of "ADR" "QA-SC" (pre ++ rest) 1 (by decide) (by decide)
      (by decide) hmatch
    have f5 := ciPrefix_false_of "ARC-C" "QA-SC" (pre ++ rest) 1 (by decide) (by decide)
      (by decide) hmatch
    simp only [TraceJson.titleTokens, show (String.mk (pre ++ rest)).data = pre ++ rest from rfl,
      List.find?, f1, f2, f3, f4, f5, hmatch, htake]
  · have f1 := ciPrefix_false_of "StR" "TEST" (pre ++ rest) 1 (by decide) (by decide)
      (by decide) hmatch
    have f2 := ciPrefix_false_of "REQ-F" "TEST" (pre ++ rest) 1 (by decide) (by decide)
      (by decide) hmatch
    have f3 := ciPrefix_false_of "REQ-NF" "TEST" (pre ++ rest) 1 (by decide) (by decide)
      (by decide) hmatch
    have f4 := ciPrefix_false_of "ADR" "TEST" (pre ++ rest) 1 (by decide) (by decide)
      (by decide) hmatch
    have f5 := ciPrefix_false_of "ARC-C" "TEST" (pre ++ rest) 1 (by decide) (by decide)
      (by decide) hmatch
    have f6 := ciPrefix_false_of "QA-SC" "TEST" (pre ++ rest) 1 (by decide) (by decide)
      (by decide) hmatch
    simp only [TraceJson.titleTokens, show (String.mk (pre ++ rest)).data = pre ++ rest from rfl,
      List.find?, f1, f2, f3, f4, f5, f6, hmatch, htake]

/-- C9 witness: the title `"str-001"` (an `StR` prefix in lower case) yields
`"STR"`, the uppercased matched prefix. -/
theorem C9_witness :
    ("StR" : String) ∈ TraceJson.titleTokens ∧
      "str".data.map Char.toLower = "StR".data.map Char.toLower ∧
      TraceJson.get_requirement_type (String.mk ("str".data ++ "-001".data)) [] =
        String.mk ("str".data.map Char.toUpper) :=
  ⟨by decide, by decide, C9_amended "StR" (by decide) "str".data "-001".data [] (by decide)⟩

/-- Issue #4 of the C6 scenario: a functional requirement with no links of
its own. -/
def c6i4 : Issue :=
  ⟨4, "REQ-F-001: Alpha", ["type:requirement:functional"], some "", "open", "u4"⟩

/-- Issue #6 of the C6 scenario. -/
def c6i6 : Issue :=
  ⟨6, "REQ-F-002: Beta", ["type:requirement:functional"], some "", "open", "u6"⟩

/-- Issue #10 of the C6 scenario: the TEST issue with the claim's body. -/
def c6i10 : Issue :=
  ⟨10, "TEST-001: Gamma", ["type:test-case"], some "Verifies Requirements: #4, #6", "open", "u10"⟩

/-- The C6 issue list. -/
def c6issues : List Issue := [c6i4, c6i6, c6i10]

/-- C6 (counterexample): on the claim's scenario the inline `verified_by`
pattern captures only the first reference of the comma list (`#4`); `#6` is
never extracted, so `"#6"` does not gain `"#10"` in its backward-link set. -/
theorem C6_counterexample :
    (TraceJson.linksOf c6i10).lookup "verified_by" = some [4] ∧
      TraceJson.linkMem (TraceJson.backward_linksOf c6issues) "#6" "#10" = false := by
  decide

/-- C6 (amended): only `#4` gains `"#10"` in its backward-link set (`#6` does
not, since the inline pattern captures a single reference per label), and the
`requirement_to_test` metric is unaffected by the TEST issue entirely: it
counts a requirement only when the requirement's own body holds a
`verified_by` link, so it reports 0 of 2 here. -/
theorem C6_amended :
    TraceJson.linkMem (TraceJson.backward_linksOf c6issues) "#4" "#10" = true ∧
      TraceJson.linkMem (TraceJson.backward_linksOf c6issues) "#6" "#10" = false ∧
      TraceJson.withTestOf c6issues = [] ∧
      (TraceJson.metricsOf c6issues c6issues).lookup "requirement_to_test" =
        some ⟨0, 2, 0⟩ := by
  refine ⟨by decide, by decide, by decide, ?_⟩
  have hreq : TraceJson.requirementsOf c6issues = ["#4", "#6"] := by decide
  have hany : TraceJson.withAnyLinkOf c6issues = [] := by decide
  have hadr : TraceJson.adrScenOf c6issues c6issues = ([], []) := by decide
  have htest : TraceJson.withTestOf c6issues = [] := by decide
  simp only [TraceJson.metricsOf, hreq, hany, hadr, htest]
  norm_num [List.lookup]
  rfl

namespace TraceJson

theorem foldl_guard_id {β : Type} (g : β → Issue → β) :
    ∀ (issues : List Issue) (b : β), (∀ acc is, is ∈ issues → g acc is = acc) →
      issues.foldl g b = b := by
  intro issues
  induction issues with
  | nil => intro b _; rfl
  | cons a rest ih =>
    intro b hg
    rw [List.foldl_cons, hg b a (List.mem_cons_self a rest)]
    exact ih b (fun acc is hmem => hg acc is (List.mem_cons_of_mem a hmem))

theorem requirementsOf_acc :
    ∀ (issues : List Issue) (acc : List String),
      issues.foldl (fun acc is => if reqGuard is then acc ++ [issueId is] else acc) acc =
        acc ++ issues.foldl (fun acc is => if reqGuard is then acc ++ [issueId is] else acc) [] := by
  intro issues
  induction issues with
  | nil => intro acc; simp
  | cons a rest ih =>
    intro acc
    simp only [List.foldl_cons]
    by_cases hg : reqGuard a = true
    · rw [if_pos hg, if_pos hg, ih (acc ++ [issueId a]), ih ([] ++ [issueId a])]
      simp
    · rw [if_neg hg, if_neg hg]
      exact ih acc

theorem reqGuard_false_of_reqs_nil :
    ∀ (issues : List Issue), requirementsOf issues = [] → ∀ is ∈ issues, ¬ reqGuard is = true := by
  intro issues
  induction issues with
  | nil => intro _ is h; cases h
  | cons a rest ih =>
    intro h0 is hmem
    by_cases hg : reqGuard a = true
    · exfalso
      unfold requirementsOf at h0
      rw [List.foldl_cons, if_pos hg, requirementsOf_acc rest ([] ++ [issueId a])] at h0
      simp at h0
    · rcases List.mem_cons.mp hmem with he | hm
      · subst he; exact hg
      · refine ih ?_ is hm
        unfold requirementsOf at h0 ⊢
        rw [List.foldl_cons, if_neg hg] at h0
        exact h0

end TraceJson

/-- C7 (counterexample): the claim says that with zero requirement nodes all
four metrics appear with `coverage_pct = 0`; in the code the three
`requirement_to_*` entries are emitted only under `if total_reqs > 0`, so with
zero requirements the metrics mapping holds the `requirement` entry alone and
`requirement_to_ADR` is absent rather than reported as 0. -/
theorem C7_counterexample :
    (TraceJson.metricsOf [] []).map Prod.fst = ["requirement"] ∧
      (TraceJson.metricsOf [] []).lookup "requirement_to_ADR" = none := by
  exact ⟨rfl, rfl⟩

/-- C7 (amended): when the total number of requirement nodes is 0, the
`requirement` metric reports `coverage_pct = 0` (the division is guarded, so
no division fault occurs), and the `requirement_to_ADR`,
`requirement_to_scenario` and `requirement_to_test` metrics are omitted from
the output entirely. -/
theorem C7_amended (repo issues : List Issue)
    (h : (TraceJson.requirementsOf issues).length = 0) :
    TraceJson.metricsOf repo issues = [("requirement", ⟨0, 0, 0⟩)] := by
  have h0 : TraceJson.requirementsOf issues = [] := List.length_eq_zero.mp h
  have hng := TraceJson.reqGuard_false_of_reqs_nil issues h0
  have hany : TraceJson.withAnyLinkOf issues = [] := by
    unfold TraceJson.withAnyLinkOf
    exact TraceJson.foldl_guard_id _ issues []
      (fun acc is hmem => by rw [if_neg (hng is hmem)])
  have htest : TraceJson.withTestOf issues = [] := by
    unfold TraceJson.withTestOf
    exact TraceJson.foldl_guard_id _ issues []
      (fun acc is hmem => by rw [if_neg (hng is hmem)])
  have hadr : TraceJson.adrScenOf repo issues = ([], []) := by
    unfold TraceJson.adrScenOf
    exact TraceJson.foldl_guard_id _ issues ([], [])
      (fun acc is hmem => by rw [if_neg (hng is hmem)])
  simp only [TraceJson.metricsOf, h0, hany, htest, hadr]
  norm_num

/-- C7 witness: an issue list holding a single TEST issue has zero
requirement nodes, and the metrics mapping degenerates as amended. -/
theorem C7_witness :
    (TraceJson.requirementsOf
        [⟨3, "TEST-009: only a test", ["type:test-case"], none, "open", "u3"⟩]).length = 0 ∧
      TraceJson.metricsOf []
          [⟨3, "TEST-009: only a test", ["type:test-case"], none, "open", "u3"⟩] =
        [("requirement", ⟨0, 0, 0⟩)] :=
  ⟨by decide, C7_amended _ _ (by decide)⟩

namespace TraceJson

theorem refScan_fst_mem (repo : List Issue) (req_type iid x : String)
    (hreq : req_type = "REQ-F" ∨ req_type = "REQ-NF") :
    ∀ (nums : List Nat) (adr scen : List String),
      (x ∈ (refScan repo req_type iid nums (adr, scen)).1 ↔
        x ∈ adr ∨ (x = iid ∧ anyADR repo nums = true)) := by
  intro nums
  induction nums with
  | nil => intro adr scen; simp [refScan, anyADR]
  | cons n rest ih =>
    intro adr scen
    cases hf : repoFind repo n with
    | none =>
      simp only [refScan, hf]
      rw [ih adr scen]
      simp [anyADR, List.any_cons, hf]
    | some ri =>
      by_cases hA : reqTypeOf ri = "ADR"
      · simp only [refScan, hf, hA, if_true]
        rw [ih (setAdd adr iid) scen]
        simp only [mem_setAdd, anyADR, List.any_cons, hf, hA]
        simp
        tauto
      · by_cases hQ : reqTypeOf ri = "QA-SC"
        · simp only [refScan, hf, if_neg hA, if_pos hQ]
          rw [ih adr (setAdd scen iid)]
          simp [anyADR, List.any_cons, hf, hA]
        · have hdead : ¬ ((req_type = "ADR" ∨ req_type = "ARC-C") ∧
              (reqTypeOf ri = "REQ-F" ∨ reqTypeOf ri = "REQ-NF")) := by
            rcases hreq with h | h <;> subst h <;> simp
          simp only [refScan, hf, if_neg hA, if_neg hQ, if_neg hdead]
          rw [ih adr scen]
          simp [anyADR, List.any_cons, hf, hA]

theorem adrScen_fst_mem (repo : List Issue) (x : String) :
    ∀ (issues : List Issue) (st : List String × List String),
      (x ∈ (issues.foldl (fun st is =>
            if reqGuard is then refScan repo (reqTypeOf is) (issueId is) (linkNumsOf is) st
            else st) st).1 ↔
        x ∈ st.1 ∨ ∃ is, is ∈ issues ∧ reqGuard is = true ∧ x = issueId is ∧
          anyADR repo (linkNumsOf is) = true) := by
  intro issues
  induction issues with
  | nil => intro st; simp
  | cons a rest ih =>
    intro st
    simp only [List.foldl_cons]
    by_cases hg : reqGuard a = true
    · rw [if_pos hg, ih]
      have hreq : reqTypeOf a = "REQ-F" ∨ reqTypeOf a = "REQ-NF" := by
        have hg2 := hg
        unfold reqGuard at hg2
        exact of_decide_eq_true hg2
      have hrs := refScan_fst_mem repo (reqTypeOf a) (issueId a) x hreq (linkNumsOf a) st.1 st.2
      rw [hrs]
      constructor
      · rintro ((hx | ⟨hxa, hany⟩) | ⟨is, hm, hg2, hxe, ha2⟩)
        · exact Or.inl hx
        · exact Or.inr ⟨a, List.mem_cons_self a rest, hg, hxa, hany⟩
        · exact Or.inr ⟨is, List.mem_cons_of_mem a hm, hg2, hxe, ha2⟩
      · rintro (hx | ⟨is, hm, hg2, hxe, ha2⟩)
        · exact Or.inl (Or.inl hx)
        · rcases List.mem_cons.mp hm with he | hm2
          · subst he; exact Or.inl (Or.inr ⟨hxe, ha2⟩)
          · exact Or.inr ⟨is, hm2, hg2, hxe, ha2⟩
    · rw [if_neg hg, ih]
      constructor
      · rintro (hx | ⟨is, hm, hg2, hxe, ha2⟩)
        · exact Or.inl hx
        · exact Or.inr ⟨is, List.mem_cons_of_mem a hm, hg2, hxe, ha2⟩
      · rintro (hx | ⟨is, hm, hg2, hxe, ha2⟩)
        · exact Or.inl hx
        · rcases List.mem_cons.mp hm with he | hm2
          · subst he; exact absurd hg2 hg
          · exact Or.inr ⟨is, hm2, hg2, hxe, ha2⟩

end TraceJson

/-- The requirement issue of the C5 scenario: #1 references #2. -/
def c5req : Issue :=
  ⟨1, "REQ-F-001: A", ["type:requirement:functional"], some "**Traces to**: #2", "open", "u1"⟩

/-- The referenced issue of the C5 scenario: present in the repository with an
ADR title prefix, but carrying no requirement label, hence not among the
fetched issues the graph is built over. -/
def c5adr : Issue := ⟨2, "ADR-001: Choose X", [], none, "open", "u2"⟩

/-- C5 (counterexample): `requirements_with_adr` contains `#1` although the
referenced `#2` is not a node of the graph (the fetched issue list is
`[c5req]` alone): the code resolves references with `repo.get_issue`, i.e.
against the whole repository, not against the graph's nodes.  This refutes
the claim's "resolves to a node present in the graph" reading. -/
theorem C5_counterexample :
    "#1" ∈ (TraceJson.adrScenOf [c5req, c5adr] [c5req]).1 ∧
      [c5req].map TraceJson.issueId = ["#1"] ∧
      TraceJson.linkNumsOf c5req = [2] ∧
      (∀ is ∈ ([c5req] : List Issue), ¬ is.number = 2) ∧
      TraceJson.reqTypeOf c5adr = "ADR" := by
  decide

/-- C5 (amended): a requirement node is counted in `requirement_to_ADR` if
and only if at least one of its referenced identifiers resolves in the
repository's issue collection (via `repo.get_issue`) to an issue whose type is
ADR — whether or not that issue is among the fetched issues forming the
graph.  A referenced identifier with no issue in the repository is treated as
non-matching (the fetch failure is caught), not as an error. -/
theorem C5_amended (repo issues : List Issue) (is : Issue)
    (hnd : (issues.map TraceJson.issueId).Nodup) (his : is ∈ issues)
    (hg : TraceJson.reqGuard is = true) :
    TraceJson.issueId is ∈ (TraceJson.adrScenOf repo issues).1 ↔
      TraceJson.anyADR repo (TraceJson.linkNumsOf is) = true := by
  unfold TraceJson.adrScenOf
  rw [TraceJson.adrScen_fst_mem repo (TraceJson.issueId is) issues ([], [])]
  simp only [List.not_mem_nil, false_or]
  constructor
  · rintro ⟨is2, hm2, hg2, hxe, ha2⟩
    have h12 : is2 = is := List.inj_on_of_nodup_map hnd hm2 his hxe.symm
    subst h12
    exact ha2
  · intro ha
    exact ⟨is, his, hg, rfl, ha⟩

/-- C5 witness: in the two-issue repository, requirement #1 is counted and
its reference #2 resolves (in the repository) to an ADR issue. -/
theorem C5_witness :
    ([c5req].map TraceJson.issueId).Nodup ∧ c5req ∈ ([c5req] : List Issue) ∧
      TraceJson.reqGuard c5req = true ∧
      (TraceJson.issueId c5req ∈ (TraceJson.adrScenOf [c5req, c5adr] [c5req]).1 ↔
        TraceJson.anyADR [c5req, c5adr] (TraceJson.linkNumsOf c5req) = true) :=
  ⟨by decide, by decide, by decide,
    C5_amended [c5req, c5adr] [c5req] c5req (by decide) (by decide) (by decide)⟩

namespace TraceJson

theorem assocSet_of_not_mem :
    ∀ (m : List (String × List String)) (k : String) (v : List String),
      k ∉ m.map Prod.fst → assocSet m k v = m ++ [(k, v)] := by
  intro m
  induction m with
  | nil => intro k v _; rfl
  | cons p rest ih =>
    intro k v hk
    obtain ⟨k0, v0⟩ := p
    simp only [List.map_cons, List.mem_cons] at hk
    push_neg at hk
    obtain ⟨hk0, hkr⟩ := hk
    simp only [assocSet, if_neg hk0]
    rw [ih k v hkr]
    simp

theorem forward_fold_eq :
    ∀ (issues : List Issue) (acc : List (String × List String)),
      (∀ is ∈ issues, issueId is ∉ acc.map Prod.fst) → (issues.map issueId).Nodup →
      issues.foldl (fun fl is => assocSet fl (issueId is) (referencesOf is)) acc =
        acc ++ issues.map (fun is => (issueId is, referencesOf is)) := by
  intro issues
  induction issues with
  | nil => intro acc _ _; simp
  | cons a rest ih =>
    intro acc hfresh hnd
    simp only [List.map_cons, List.nodup_cons] at hnd
    simp only [List.foldl_cons]
    rw [assocSet_of_not_mem acc (issueId a) (referencesOf a)
      (hfresh a (List.mem_cons_self a rest))]
    rw [ih (acc ++ [(issueId a, referencesOf a)]) ?_ hnd.2]
    · simp
    · intro is hm
      simp only [List.map_append, List.mem_append]
      push_neg
      refine ⟨hfresh is (List.mem_cons_of_mem a hm), ?_⟩
      intro hx
      simp only [List.map_cons, List.map_nil, List.mem_singleton] at hx
      exact hnd.1 (hx ▸ List.mem_map_of_mem issueId hm)

theorem lookup_mapPairs :
    ∀ (issues : List Issue), (issues.map issueId).Nodup → ∀ (a : String) (l : List String),
      ((issues.map (fun is => (issueId is, referencesOf is))).lookup a = some l ↔
        ∃ is, is ∈ issues ∧ issueId is = a ∧ referencesOf is = l) := by
  intro issues
  induction issues with
  | nil => intro _ a l; simp [List.lookup]
  | cons b rest ih =>
    intro hnd a l
    simp only [List.map_cons, List.nodup_cons] at hnd
    simp only [List.map_cons, List.lookup]
    by_cases hab : a = issueId b
    · subst hab
      simp only [beq_self_eq_true]
      constructor
      · intro h
        cases h
        exact ⟨b, List.mem_cons_self b rest, rfl, rfl⟩
      · rintro ⟨is, hm, hid, hrefs⟩
        rcases List.mem_cons.mp hm with he | hm2
        · subst he; rw [hrefs]
        · exact absurd (hid ▸ List.mem_map_of_mem issueId hm2) hnd.1
    · rw [show ((a == issueId b) = false) by simpa using hab]
      rw [ih hnd.2 a l]
      constructor
      · rintro ⟨is, hm, hid, hrefs⟩
        exact ⟨is, List.mem_cons_of_mem b hm, hid, hrefs⟩
      · rintro ⟨is, hm, hid, hrefs⟩
        rcases List.mem_cons.mp hm with he | hm2
        · subst he; exact absurd hid.symm hab
        · exact ⟨is, hm2, hid, hrefs⟩

theorem linkMem_forward (issues : List Issue) (a b : String)
    (hnd : (issues.map issueId).Nodup) :
    linkMem (forward_linksOf issues) a b = true ↔
      ∃ is, is ∈ issues ∧ issueId is = a ∧ b ∈ referencesOf is := by
  unfold forward_linksOf
  rw [forward_fold_eq issues [] (by simp) hnd, List.nil_append]
  unfold linkMem
  cases hl : (issues.map (fun is => (issueId is, referencesOf is))).lookup a with
  | none =>
    constructor
    · intro h; cases h
    · rintro ⟨is, hm, hid, hb⟩
      have hsome := (lookup_mapPairs issues hnd a (referencesOf is)).mpr ⟨is, hm, hid, rfl⟩
      rw [hl] at hsome
      cases hsome
  | some l =>
    rw [lookup_mapPairs issues hnd a l] at hl
    obtain ⟨is0, hm0, hid0, hrefs0⟩ := hl
    simp only [decide_eq_true_eq]
    constructor
    · intro hb
      exact ⟨is0, hm0, hid0, hrefs0 ▸ hb⟩
    · rintro ⟨is1, hm1, hid1, hb1⟩
      have h01 : is1 = is0 := List.inj_on_of_nodup_map hnd hm1 hm0 (hid1.trans hid0.symm)
      subst h01
      exact hrefs0 ▸ hb1

theorem bwAdd_linkMem :
    ∀ (m : List (String × List String)) (k v k2 x : String),
      (linkMem (bwAdd m k v) k2 x = true ↔ linkMem m k2 x = true ∨ (k2 = k ∧ x = v)) := by
  intro m
  induction m with
  | nil =>
    intro k v k2 x
    by_cases h2 : k2 = k
    · subst h2
      simp [linkMem, bwAdd, List.lookup]
    · simp [linkMem, bwAdd, List.lookup, show ((k2 == k) = false) by simpa using h2, h2]
  | cons p rest ih =>
    intro k v k2 x
    obtain ⟨k0, v0⟩ := p
    by_cases hk : k = k0
    · subst hk
      simp only [bwAdd, if_pos rfl]
      by_cases h2 : k2 = k
      · subst h2
        simp only [linkMem, List.lookup, beq_self_eq_true]
        simp [List.mem_append]
      · have hb : (k2 == k) = false := by simpa using h2
        simp only [linkMem, List.lookup, hb]
        simp [h2]
    · simp only [bwAdd, if_neg hk]
      by_cases h2 : k2 = k0
      · subst h2
        have hne : ¬ (k2 = k) := fun h => hk h.symm
        simp only [linkMem, List.lookup, beq_self_eq_true]
        simp [hne]
      · have hb : (k2 == k0) = false := by simpa using h2
        simp only [linkMem, List.lookup, hb]
        exact ih k v k2 x

end TraceJson

namespace TraceJson

theorem bw_inner (iid : String) :
    ∀ (refs : List String) (bl : List (String × List String)) (k x : String),
      (linkMem (refs.foldl (fun bl r => bwAdd bl r iid) bl) k x = true ↔
        linkMem bl k x = true ∨ (k ∈ refs ∧ x = iid)) := by
  intro refs
  induction refs with
  | nil => intro bl k x; simp
  | cons r rest ih =>
    intro bl k x
    simp only [List.foldl_cons]
    rw [ih (bwAdd bl r iid) k x, bwAdd_linkMem]
    constructor
    · rintro ((h | ⟨hk, hx⟩) | ⟨hk2, hx⟩)
      · exact Or.inl h
      · exact Or.inr ⟨hk ▸ List.mem_cons_self r rest, hx⟩
      · exact Or.inr ⟨List.mem_cons_of_mem r hk2, hx⟩
    · rintro (h | ⟨hk, hx⟩)
      · exact Or.inl (Or.inl h)
      · rcases List.mem_cons.mp hk with he | hm
        · exact Or.inl (Or.inr ⟨he, hx⟩)
        · exact Or.inr ⟨hm, hx⟩

theorem bw_outer :
    ∀ (issues : List Issue) (bl : List (String × List String)) (k x : String),
      (linkMem (issues.foldl (fun bl is =>
            (referencesOf is).foldl (fun bl r => bwAdd bl r (issueId is)) bl) bl) k x = true ↔
        linkMem bl k x = true ∨ ∃ is, is ∈ issues ∧ issueId is = x ∧ k ∈ referencesOf is) := by
  intro issues
  induction issues with
  | nil => intro bl k x; simp
  | cons a rest ih =>
    intro bl k x
    simp only [List.foldl_cons]
    rw [ih, bw_inner]
    constructor
    · rintro ((h | ⟨hk, hx⟩) | ⟨is, hm, hid, hkr⟩)
      · exact Or.inl h
      · exact Or.inr ⟨a, List.mem_cons_self a rest, hx.symm, hk⟩
      · exact Or.inr ⟨is, List.mem_cons_of_mem a hm, hid, hkr⟩
    · rintro (h | ⟨is, hm, hid, hkr⟩)
      · exact Or.inl (Or.inl h)
      · rcases List.mem_cons.mp hm with he | hm2
        · subst he; exact Or.inl (Or.inr ⟨hkr, hid.symm⟩)
        · exact Or.inr ⟨is, hm2, hid, hkr⟩

theorem linkMem_backward (issues : List Issue) (k x : String) :
    linkMem (backward_linksOf issues) k x = true ↔
      ∃ is, is ∈ issues ∧ issueId is = x ∧ k ∈ referencesOf is := by
  unfold backward_linksOf
  rw [bw_outer]
  simp [linkMem, List.lookup]

end TraceJson

/-- C8: backward-link symmetry of the assembled graph.  For issue lists with
distinct identifiers (the fetch loop's `seen_numbers` set guarantees distinct
issue numbers, hence distinct `#n` identifiers), `b` is in `forward_links[a]`
exactly when `a` is in `backward_links[b]`; a key absent from either mapping
has no members. -/
theorem C8_confirmed (issues : List Issue) (a b : String)
    (hnd : (issues.map TraceJson.issueId).Nodup) :
    TraceJson.linkMem (TraceJson.forward_linksOf issues) a b = true ↔
      TraceJson.linkMem (TraceJson.backward_linksOf issues) b a = true := by
  rw [TraceJson.linkMem_forward issues a b hnd, TraceJson.linkMem_backward issues b a]

/-- Issue #1 of the C8 witness graph (references #2). -/
def c8a : Issue :=
  ⟨1, "REQ-F-001: P", ["type:requirement:functional"], some "**Depends on**: #2", "open", "w1"⟩

/-- Issue #2 of the C8 witness graph. -/
def c8b : Issue :=
  ⟨2, "StR-001: Q", ["type:stakeholder-requirement"], none, "open", "w2"⟩

/-- C8 witness: in the two-issue graph the symmetry instance at
`a = "#1"`, `b = "#2"` holds (both sides are true). -/
theorem C8_witness :
    (([c8a, c8b] : List Issue).map TraceJson.issueId).Nodup ∧
      (TraceJson.linkMem (TraceJson.forward_linksOf [c8a, c8b]) "#1" "#2" = true ↔
        TraceJson.linkMem (TraceJson.backward_linksOf [c8a, c8b]) "#2" "#1" = true) :=
  ⟨by decide, C8_confirmed [c8a, c8b] "#1" "#2" (by decide)⟩
